import Mathlib

/-!
Verification of the RootSight log-analysis core against its specification.

The development shallowly embeds the pure algorithmic core of the repository:
the taxonomy classifier and error-snippet extraction of
`src/lib/logParser.ts` (`ERROR_TAXONOMY`, `parseLog`, `extractErrorSnippet`,
`deduplicateStackTraces`, `hashStackTrace`), the similarity matcher
(`findSimilarIncidents`), the confidence scorer (`computeConfidence`), and
the response-validation/retry logic of the `analyze` edge function
(`parseJSON` and the orchestration in `serve`).

Text is modelled as `List Char` (JavaScript strings are sequences of UTF-16
units; all inputs considered here are plain characters).  JavaScript numbers
are modelled as rationals, with 32-bit wrap-around made explicit where the
source uses bitwise operators.  Regular expressions are embedded by
specialized matching functions faithful to the concrete patterns that appear
in the source (case-insensitive literal search, and literal-dot-star-literal
search in which the dot does not cross a newline, exactly as in JavaScript).
-/

namespace RootSight

/-- Case-insensitive character comparison (ASCII folding, as the `i` regex
flag behaves on the ASCII pattern strings used by the source). -/
def ciEq (a b : Char) : Bool := a.toLower == b.toLower

/-- The JavaScript whitespace class `\s` restricted to the characters that
can occur in the texts considered here. -/
def isWsChar (c : Char) : Bool :=
  c == ' ' || c == '\t' || c == '\n' || c == '\r' || c == '\x0b' || c == '\x0c' || c == '\xa0'

def isDigitChar (c : Char) : Bool := '0' ≤ c && c ≤ '9'

/-- The character class `[0-9a-f]` under the case-insensitive flag. -/
def isHexDigitChar (c : Char) : Bool :=
  isDigitChar c || ('a' ≤ c && c ≤ 'f') || ('A' ≤ c && c ≤ 'F')

/-- `pat` is a case-insensitive prefix of `text`. -/
def ciPrefixAt : List Char → List Char → Bool
  | [], _ => true
  | _ :: _, [] => false
  | p :: ps, t :: ts => ciEq p t && ciPrefixAt ps ts

/-- `pat` occurs case-insensitively anywhere in `text` (the semantics of
`/pat/i.test(text)` for a literal pattern). -/
def containsCI (pat : List Char) : List Char → Bool
  | [] => ciPrefixAt pat []
  | t :: ts => ciPrefixAt pat (t :: ts) || containsCI pat ts

/-- The semantics of `/a.*b/i.test(text)`: `a` matches at some position, and
`b` matches later with no newline in between (`.` does not match a line
terminator in JavaScript).  Faithful for the newline-free `a`, `b` used by
the source patterns. -/
def seqMatchCI (a b : List Char) : List Char → Bool
  | [] => ciPrefixAt a [] && ciPrefixAt b []
  | t :: ts =>
    (ciPrefixAt a (t :: ts) &&
      containsCI b (((t :: ts).drop a.length).takeWhile (fun c => c != '\n')))
    || seqMatchCI a b ts

/-- Embedded regular-expression pattern: every pattern of `ERROR_TAXONOMY`
is either a case-insensitive literal or a literal `.*` literal pair. -/
inductive Pat
  | lit (s : List Char)
  | seq (a b : List Char)

/-- `p.test text`, the anywhere-in-the-text match used by the classifier. -/
def Pat.test (p : Pat) (text : List Char) : Bool :=
  match p with
  | .lit s => containsCI s text
  | .seq a b => seqMatchCI a b text

/-- `ErrorType` from `src/lib/logParser.ts`. -/
inductive ErrorType
  | OutOfMemoryError
  | NullPointerException
  | TimeoutException
  | PermissionDenied
  | SchemaMismatch
  | NetworkError
  | UnknownError
deriving DecidableEq, Repr

/-- Pattern list of the `OutOfMemoryError` entry of `ERROR_TAXONOMY`. -/
def oomPatterns : List Pat :=
  [.lit "OutOfMemoryError".data, .lit "out of memory".data, .lit "java heap space".data,
   .lit "OOMKilled".data, .lit "memory limit exceeded".data,
   .lit "GC overhead limit exceeded".data]

/-- Pattern list of the `SchemaMismatch` entry of `ERROR_TAXONOMY`. -/
def schemaMismatchPatterns : List Pat :=
  [.lit "AnalysisException".data, .lit "cannot resolve column".data, .lit "cannot resolve".data,
   .lit "column not found".data, .lit "unresolved attribute".data, .lit "Schema mismatch".data,
   .seq "schema".data "mismatch".data, .lit "incompatible schema".data,
   .seq "field".data "missing".data, .lit "unexpected field".data, .lit "type mismatch".data,
   .seq "column".data "does not exist".data]

/-- Pattern list of the `PermissionDenied` entry of `ERROR_TAXONOMY`. -/
def permissionDeniedPatterns : List Pat :=
  [.lit "Permission denied".data, .lit "AccessControlException".data, .lit "not authorized".data,
   .lit "Access denied".data, .lit "Unauthorized".data, .lit "403 Forbidden".data,
   .lit "insufficient privileges".data, .lit "PERMISSION_DENIED".data]

/-- Pattern list of the `TimeoutException` entry of `ERROR_TAXONOMY`. -/
def timeoutPatterns : List Pat :=
  [.lit "TimeoutException".data, .lit "timed out".data, .lit "timeout".data,
   .lit "job aborted due to timeout".data, .lit "connection timeout".data,
   .lit "read timeout".data, .lit "socket timeout".data, .lit "deadline exceeded".data]

/-- Pattern list of the `NetworkError` entry of `ERROR_TAXONOMY`. -/
def networkPatterns : List Pat :=
  [.lit "Connection refused".data, .lit "Connection reset".data,
   .lit "JDBCConnectionException".data, .seq "network".data "unreachable".data,
   .seq "host".data "not found".data, .lit "DNS resolution failed".data]

/-- Pattern list of the `NullPointerException` entry of `ERROR_TAXONOMY`. -/
def nullPointerPatterns : List Pat :=
  [.lit "NullPointerException".data, .lit "NullReferenceException".data,
   .lit "null pointer".data, .lit "cannot read propert".data, .lit "is not defined".data,
   .seq "AttributeError".data "NoneType".data]

/-- `ERROR_TAXONOMY` from `src/lib/logParser.ts`, in declaration order. -/
def ERROR_TAXONOMY : List (ErrorType × List Pat) :=
  [(.OutOfMemoryError, oomPatterns),
   (.SchemaMismatch, schemaMismatchPatterns),
   (.PermissionDenied, permissionDeniedPatterns),
   (.TimeoutException, timeoutPatterns),
   (.NetworkError, networkPatterns),
   (.NullPointerException, nullPointerPatterns)]

/-- `patterns.some((p) => p.test(text))`. -/
def anyPatMatches (pats : List Pat) (text : List Char) : Bool :=
  pats.any (fun p => p.test text)

/-- The error-type detection loop of `parseLog` (`src/lib/logParser.ts`,
lines 221-247): the first taxonomy entry with a matching pattern wins, and
`UnknownError` is returned when no entry matches. -/
def detectErrorType (rawLog : String) : ErrorType :=
  match ERROR_TAXONOMY.find? (fun e => anyPatMatches e.2 rawLog.data) with
  | some e => e.1
  | none => .UnknownError

theorem detectErrorType_first {s : String} {pre post : List (ErrorType × List Pat)}
    {e : ErrorType × List Pat} (hsplit : ERROR_TAXONOMY = pre ++ e :: post)
    (hpre : ∀ e' ∈ pre, anyPatMatches e'.2 s.data = false)
    (he : anyPatMatches e.2 s.data = true) : detectErrorType s = e.1 := by
  unfold detectErrorType
  rw [hsplit, List.find?_append]
  have h1 : (pre.find? fun e => anyPatMatches e.2 s.data) = none := by
    rw [List.find?_eq_none]
    intro x hx
    simp [hpre x hx]
  have h2 : List.find? (fun x => anyPatMatches x.2 s.data) (e :: post) = some e :=
    List.find?_cons_of_pos _ he
  rw [h1, Option.none_or, h2]

/-- Claim C1: classification returns the first error category, in the fixed
declared order OutOfMemory, SchemaMismatch, PermissionDenied, Timeout,
Network, NullReference, whose pattern list contains a pattern matching
anywhere in the text case-insensitively, and returns the Unknown category
when no pattern of any category matches; any text matched both by an
Out-of-Memory pattern and by a Schema-Mismatch pattern is classified
OutOfMemory. -/
theorem C1_classification_fixed_order :
    (ERROR_TAXONOMY.map Prod.fst =
      [ErrorType.OutOfMemoryError, .SchemaMismatch, .PermissionDenied,
       .TimeoutException, .NetworkError, .NullPointerException]) ∧
    (∀ (s : String) (pre post : List (ErrorType × List Pat)) (e : ErrorType × List Pat),
      ERROR_TAXONOMY = pre ++ e :: post →
      (∀ e' ∈ pre, anyPatMatches e'.2 s.data = false) →
      anyPatMatches e.2 s.data = true →
      detectErrorType s = e.1) ∧
    (∀ s : String, (∀ e ∈ ERROR_TAXONOMY, anyPatMatches e.2 s.data = false) →
      detectErrorType s = .UnknownError) ∧
    (∀ s : String, anyPatMatches oomPatterns s.data = true →
      anyPatMatches schemaMismatchPatterns s.data = true →
      detectErrorType s = .OutOfMemoryError) := by
  refine ⟨rfl, ?_, ?_, ?_⟩
  · intro s pre post e hsplit hpre he
    exact detectErrorType_first hsplit hpre he
  · intro s h
    unfold detectErrorType
    have h1 : (ERROR_TAXONOMY.find? fun e => anyPatMatches e.2 s.data) = none := by
      rw [List.find?_eq_none]
      intro x hx
      simp [h x hx]
    rw [h1]
  · intro s hoom _
    exact @detectErrorType_first s [] ERROR_TAXONOMY.tail
      (.OutOfMemoryError, oomPatterns) rfl (by simp) hoom

/-- Witness for C1 at a concrete log text containing both an Out-of-Memory
marker and a Schema-Mismatch marker. -/
theorem C1_classification_fixed_order_witness :
    anyPatMatches oomPatterns "ERROR: out of memory while loading; schema mismatch in table".data = true ∧
    anyPatMatches schemaMismatchPatterns "ERROR: out of memory while loading; schema mismatch in table".data = true ∧
    detectErrorType "ERROR: out of memory while loading; schema mismatch in table" = .OutOfMemoryError :=
  ⟨by decide, by decide,
    C1_classification_fixed_order.2.2.2 _ (by decide) (by decide)⟩

/-! ## Stack fingerprinting (`hashStackTrace`, `src/lib/logParser.ts` lines 257-273)

The three global regex replacements are embedded as left-to-right scanners.
Each scanner is written with a fuel argument for structural recursion; every
step consumes at least one input character, so fuel equal to the input
length never runs out (the fuel-exhausted branch returns the input and is
unreachable from the wrappers below). -/

/-- Global replacement `.replace(/:\d+/g, ":N")`: each colon followed by a
maximal digit run is rewritten to `:N`, scanning left to right. -/
def replLNF : ℕ → List Char → List Char
  | _, [] => []
  | 0, xs => xs
  | f+1, ':' :: rest =>
    match rest with
    | d :: ds =>
      if isDigitChar d then ':' :: 'N' :: replLNF f ((d :: ds).dropWhile isDigitChar)
      else ':' :: replLNF f (d :: ds)
    | [] => [':']
  | f+1, c :: rest => c :: replLNF f rest

def replLN (xs : List Char) : List Char := replLNF xs.length xs

/-- Global replacement `.replace(/0x[0-9a-f]+/gi, "0xADDR")`. -/
def replHexF : ℕ → List Char → List Char
  | _, [] => []
  | 0, xs => xs
  | f+1, c :: rest =>
    if c = '0' then
      match rest with
      | x :: d :: rest2 =>
        if (x = 'x' ∨ x = 'X') ∧ isHexDigitChar d then
          '0' :: 'x' :: 'A' :: 'D' :: 'D' :: 'R' ::
            replHexF f ((d :: rest2).dropWhile isHexDigitChar)
        else c :: replHexF f rest
      | _ => c :: replHexF f rest
    else c :: replHexF f rest

def replHex (xs : List Char) : List Char := replHexF xs.length xs

/-- Prefix match of `/\d{4}-\d{2}-\d{2}[T\s]\d{2}:\d{2}:\d{2}\S*/`; returns
the remainder of the text after the (greedy) match. -/
def tsAt : List Char → Option (List Char)
  | a :: b :: c :: d :: '-' :: e :: f :: '-' :: g :: h :: t :: i :: j :: ':' ::
      k :: l :: ':' :: m :: n :: rest =>
    if isDigitChar a ∧ isDigitChar b ∧ isDigitChar c ∧ isDigitChar d ∧
       isDigitChar e ∧ isDigitChar f ∧ isDigitChar g ∧ isDigitChar h ∧
       (t = 'T' ∨ isWsChar t = true) ∧ isDigitChar i ∧ isDigitChar j ∧
       isDigitChar k ∧ isDigitChar l ∧ isDigitChar m ∧ isDigitChar n
    then some (rest.dropWhile (fun ch => !isWsChar ch))
    else none
  | _ => none

/-- Global replacement of the timestamp pattern with `TIMESTAMP`. -/
def replTSF : ℕ → List Char → List Char
  | _, [] => []
  | 0, xs => xs
  | f+1, c :: rest =>
    match tsAt (c :: rest) with
    | some rem => "TIMESTAMP".data ++ replTSF f rem
    | none => c :: replTSF f rest

def replTS (xs : List Char) : List Char := replTSF xs.length xs

/-- JavaScript `String.prototype.trim`. -/
def jsTrim (xs : List Char) : List Char :=
  ((xs.dropWhile isWsChar).reverse.dropWhile isWsChar).reverse

/-- Wrap an integer to the signed 32-bit range, as the JavaScript bitwise
operators do. -/
def toInt32 (x : ℤ) : ℤ :=
  let r := x % 4294967296
  if r < 2147483648 then r else r - 4294967296

/-- One iteration of the hash loop:
`hash = ((hash << 5) - hash) + chr; hash |= 0`. -/
def hashStep (h : ℤ) (c : Char) : ℤ :=
  toInt32 (toInt32 (h * 32) - h + c.toNat)

/-- The rolling hash over the normalized characters, seeded with 0. -/
def hashFold (xs : List Char) : ℤ := xs.foldl hashStep 0

/-- Digit characters of `Number.prototype.toString(36)`. -/
def b36digit (n : ℕ) : Char :=
  if n < 10 then Char.ofNat (48 + n) else Char.ofNat (87 + n)

/-- Base-36 rendering, with fuel (the digit count never exceeds the number
itself, so fuel `n + 1` always suffices). -/
def toBase36F : ℕ → ℕ → List Char
  | 0, _ => []
  | f+1, n =>
    if n < 36 then [b36digit n]
    else toBase36F f (n / 36) ++ [b36digit (n % 36)]

/-- `Math.abs(hash).toString(36)` on a natural number. -/
def toBase36 (n : ℕ) : List Char := toBase36F (n + 1) n

/-- The normalization pipeline of `hashStackTrace`, in source order: line
numbers, then hexadecimal addresses, then timestamps, then trim. -/
def normalizeTrace (xs : List Char) : List Char :=
  jsTrim (replTS (replHex (replLN xs)))

/-- `hashStackTrace` from `src/lib/logParser.ts`: empty input short-circuits
to the empty fingerprint, otherwise the normalized text is hashed and the
absolute value rendered in base 36. -/
def hashStackTrace (stackTrace : String) : String :=
  if stackTrace = "" then ""
  else ⟨toBase36 (hashFold (normalizeTrace stackTrace.data)).natAbs⟩

set_option maxRecDepth 40000 in
/-- Claim C4 (code bug): the claim states the fingerprint is invariant when
an embedded timestamp is replaced by another value of the same shape.  The
code first rewrites `:<digits>` to `:N`, which destroys the `hh:mm:ss` part
of every timestamp, so the timestamp replacement that runs afterwards never
fires and the date and hour digits still reach the hash.  The two traces
below differ only in their embedded timestamp (both timestamps are of the
shape the timestamp pattern matches, as witnessed by `tsAt`), yet they hash
differently. -/
theorem C4_timestamp_substitution_changes_fingerprint :
    tsAt "2024-01-15 10:23:45".data = some [] ∧
    tsAt "2024-01-15 11:24:46".data = some [] ∧
    hashStackTrace "at Executor.run 2024-01-15 10:23:45" ≠
      hashStackTrace "at Executor.run 2024-01-15 11:24:46" :=
  ⟨by decide, by decide, by decide⟩

theorem not_colon_of_ws {c : Char} (h : isWsChar c = true) : c ≠ ':' := by
  unfold isWsChar at h
  simp only [Bool.or_eq_true, beq_iff_eq] at h
  rcases h with ((((((rfl | rfl) | rfl) | rfl) | rfl) | rfl) | rfl) <;> decide

theorem not_zero_of_ws {c : Char} (h : isWsChar c = true) : c ≠ '0' := by
  unfold isWsChar at h
  simp only [Bool.or_eq_true, beq_iff_eq] at h
  rcases h with ((((((rfl | rfl) | rfl) | rfl) | rfl) | rfl) | rfl) <;> decide

theorem not_digit_of_ws {c : Char} (h : isWsChar c = true) : isDigitChar c = false := by
  unfold isWsChar at h
  simp only [Bool.or_eq_true, beq_iff_eq] at h
  rcases h with ((((((rfl | rfl) | rfl) | rfl) | rfl) | rfl) | rfl) <;> decide

theorem replLNF_cons_of_ne {f : ℕ} {c : Char} {rest : List Char} (hc : c ≠ ':') :
    replLNF (f + 1) (c :: rest) = c :: replLNF f rest := by
  rw [replLNF.eq_def]
  split
  all_goals simp_all

theorem replHexF_cons_of_ne {f : ℕ} {c : Char} {rest : List Char} (hc : c ≠ '0') :
    replHexF (f + 1) (c :: rest) = c :: replHexF f rest := by
  rw [replHexF.eq_def]
  split
  all_goals simp_all

theorem tsAt_eq_none_of_ws {xs : List Char} (hws : ∀ c ∈ xs, isWsChar c = true) :
    tsAt xs = none := by
  rw [tsAt.eq_def]
  split
  · rename_i a b c d e f g h t i j k l m n rest
    rw [if_neg]
    intro hcond
    have ha : isWsChar a = true := hws a (by simp)
    rw [not_digit_of_ws ha] at hcond
    exact absurd hcond.1 (by simp)
  · rfl

theorem replTSF_cons_of_none {f : ℕ} {c : Char} {rest : List Char}
    (h : tsAt (c :: rest) = none) :
    replTSF (f + 1) (c :: rest) = c :: replTSF f rest := by
  rw [replTSF.eq_def]
  split
  all_goals simp_all

theorem replLNF_eq_self_of_ws {f : ℕ} :
    ∀ {xs : List Char}, (∀ c ∈ xs, isWsChar c = true) → replLNF f xs = xs := by
  induction f with
  | zero => intro xs _; cases xs <;> rfl
  | succ f ih =>
    intro xs hws
    match xs with
    | [] => rfl
    | c :: rest =>
      have hc : isWsChar c = true := hws c (by simp)
      rw [replLNF_cons_of_ne (not_colon_of_ws hc),
        ih (fun x hx => hws x (List.mem_cons_of_mem _ hx))]

theorem replHexF_eq_self_of_ws {f : ℕ} :
    ∀ {xs : List Char}, (∀ c ∈ xs, isWsChar c = true) → replHexF f xs = xs := by
  induction f with
  | zero => intro xs _; cases xs <;> rfl
  | succ f ih =>
    intro xs hws
    match xs with
    | [] => rfl
    | c :: rest =>
      have hc : isWsChar c = true := hws c (by simp)
      rw [replHexF_cons_of_ne (not_zero_of_ws hc),
        ih (fun x hx => hws x (List.mem_cons_of_mem _ hx))]

theorem replTSF_eq_self_of_ws {f : ℕ} :
    ∀ {xs : List Char}, (∀ c ∈ xs, isWsChar c = true) → replTSF f xs = xs := by
  induction f with
  | zero => intro xs _; cases xs <;> rfl
  | succ f ih =>
    intro xs hws
    match xs with
    | [] => rfl
    | c :: rest =>
      rw [replTSF_cons_of_none (tsAt_eq_none_of_ws hws),
        ih (fun x hx => hws x (List.mem_cons_of_mem _ hx))]

theorem normalizeTrace_eq_nil_of_ws {xs : List Char}
    (hws : ∀ c ∈ xs, isWsChar c = true) : normalizeTrace xs = [] := by
  unfold normalizeTrace replLN replHex replTS jsTrim
  rw [replLNF_eq_self_of_ws hws, replHexF_eq_self_of_ws hws, replTSF_eq_self_of_ws hws]
  rw [List.dropWhile_eq_nil_iff.mpr hws]
  rfl

theorem toBase36_ne_nil (n : ℕ) : toBase36 n ≠ [] := by
  unfold toBase36 toBase36F
  split
  · simp
  · simp

/-- Claim C10: `hashStackTrace` returns the empty fingerprint exactly for
the empty input, and returns the non-empty fingerprint `"0"` (the base-36
hash of the empty normalized string) for every non-empty whitespace-only
input, rather than the empty no-stack-trace marker. -/
theorem C10_hash_empty_fingerprint :
    (hashStackTrace "" = "") ∧
    (∀ s : String, s ≠ "" → hashStackTrace s ≠ "") ∧
    (∀ s : String, s ≠ "" → (∀ c ∈ s.data, isWsChar c = true) →
      hashStackTrace s = "0") := by
  refine ⟨by decide, ?_, ?_⟩
  · intro s hs
    unfold hashStackTrace
    rw [if_neg hs]
    intro hcontra
    exact toBase36_ne_nil _ (congrArg String.data hcontra)
  · intro s hs hws
    unfold hashStackTrace
    rw [if_neg hs, normalizeTrace_eq_nil_of_ws hws]
    rfl

/-- Witness for C10 at the concrete one-space input. -/
theorem C10_hash_empty_fingerprint_witness :
    (" " : String) ≠ "" ∧ hashStackTrace " " ≠ "" ∧ hashStackTrace " " = "0" :=
  ⟨by decide, C10_hash_empty_fingerprint.2.1 " " (by decide),
    C10_hash_empty_fingerprint.2.2 " " (by decide) (by decide)⟩

/-! ## Stack-frame deduplication (`deduplicateStackTraces`, lines 126-149) -/

/-- JavaScript `log.split("\n")`. -/
def splitLines : List Char → List (List Char)
  | [] => [[]]
  | '\n' :: rest => [] :: splitLines rest
  | c :: rest =>
    match splitLines rest with
    | l :: ls => (c :: l) :: ls
    | [] => [[c]]

/-- `lines.join("\n")`. -/
def joinLines (ls : List (List Char)) : List Char := List.intercalate ['\n'] ls

/-- `/^\s+at\s/.test(line)`: one or more whitespace characters, then `at`,
then a whitespace character. -/
def isFrameLine (l : List Char) : Bool :=
  (!(l.takeWhile isWsChar).isEmpty) &&
    (match l.dropWhile isWsChar with
     | 'a' :: 't' :: c :: _ => isWsChar c
     | _ => false)

/-- Decimal digits of a natural number, with fuel. -/
def decDigitsF : ℕ → ℕ → List Char
  | 0, _ => []
  | f+1, n =>
    if n < 10 then [Char.ofNat (48 + n)]
    else decDigitsF f (n / 10) ++ [Char.ofNat (48 + n % 10)]

/-- Decimal rendering of a natural number (template-literal interpolation). -/
def natToChars (n : ℕ) : List Char := decDigitsF (n + 1) n

/-- The inserted marker line:
`  ... (N duplicate frame(s) removed)`. -/
def dupeMarker (k : ℕ) : List Char :=
  "  ... (".data ++ natToChars k ++ " duplicate frame(s) removed)".data

/-- The loop of `deduplicateStackTraces`: `seen` is the set of trimmed
stack-frame lines met so far (for the whole log, not per run), `dupe` the
number of pending removed lines to be announced by the next marker. -/
def dedupAux : List (List Char) → List (List Char) → ℕ → List (List Char)
  | [], _, dupe => if 0 < dupe then [dupeMarker dupe] else []
  | l :: rest, seen, dupe =>
    if isFrameLine l = true ∧ jsTrim l ∈ seen then dedupAux rest seen (dupe + 1)
    else
      (if 0 < dupe then [dupeMarker dupe] else []) ++
        l :: dedupAux rest (if isFrameLine l then jsTrim l :: seen else seen) 0

/-- `deduplicateStackTraces` from `src/lib/logParser.ts`. -/
def deduplicateStackTraces (log : String) : String :=
  ⟨joinLines (dedupAux (splitLines log.data) [] 0)⟩

/-- Specification-level reformulation used by the amended claim C5, phase 1:
flag each line as removed or kept.  A line is removed exactly when it is a
stack-frame line whose trimmed content equals the trimmed content of an
earlier stack-frame line, anywhere in the log. -/
def removedMask : List (List Char) → List (List Char) → List (List Char × Bool)
  | [], _ => []
  | l :: rest, seen =>
    if isFrameLine l then
      if jsTrim l ∈ seen then (l, true) :: removedMask rest seen
      else (l, false) :: removedMask rest (jsTrim l :: seen)
    else (l, false) :: removedMask rest seen

/-- Specification-level reformulation, phase 2: keep kept lines in order and
replace each maximal run of removed lines with one marker counting them. -/
def compressRemoved : List (List Char × Bool) → List (List Char)
  | [] => []
  | (l, false) :: rest => l :: compressRemoved rest
  | (_, true) :: rest =>
    dupeMarker (1 + (rest.takeWhile (fun p => p.2)).length) ::
      compressRemoved (rest.dropWhile (fun p => p.2))
termination_by xs => xs.length
decreasing_by
  all_goals simp_wf
  all_goals
    first
      | omega
      | exact Nat.lt_succ_of_le (List.dropWhile_sublist _).length_le

theorem compressRemoved_nil : compressRemoved [] = [] := by
  simp [compressRemoved]

theorem compressRemoved_kept (l : List Char) (rest : List (List Char × Bool)) :
    compressRemoved ((l, false) :: rest) = l :: compressRemoved rest := by
  simp [compressRemoved]

theorem compressRemoved_removed (l : List Char) (rest : List (List Char × Bool)) :
    compressRemoved ((l, true) :: rest) =
      dupeMarker (1 + (rest.takeWhile (fun p => p.2)).length) ::
        compressRemoved (rest.dropWhile (fun p => p.2)) := by
  simp [compressRemoved]

theorem dedupAux_eq_compress (lines : List (List Char)) :
    ∀ seen : List (List Char),
      dedupAux lines seen 0 = compressRemoved (removedMask lines seen) ∧
      (∀ d : ℕ, dedupAux lines seen (d + 1) =
        dupeMarker (d + 1 + ((removedMask lines seen).takeWhile (fun p => p.2)).length) ::
          compressRemoved ((removedMask lines seen).dropWhile (fun p => p.2))) := by
  induction lines with
  | nil =>
    intro seen
    refine ⟨by simp [dedupAux, removedMask, compressRemoved_nil], fun d => ?_⟩
    simp [dedupAux, removedMask, compressRemoved_nil]
  | cons l rest ih =>
    intro seen
    by_cases hf : isFrameLine l = true
    · by_cases hm : jsTrim l ∈ seen
      · have hmask : removedMask (l :: rest) seen = (l, true) :: removedMask rest seen := by
          simp [removedMask, hf, hm]
        have hded : ∀ d, dedupAux (l :: rest) seen d = dedupAux rest seen (d + 1) := by
          intro d
          simp [dedupAux, hf, hm]
        refine ⟨?_, fun d => ?_⟩
        · rw [hded 0, (ih seen).2 0, hmask, compressRemoved_removed]
        · rw [hded (d + 1), (ih seen).2 (d + 1), hmask]
          simp only [List.takeWhile_cons, List.dropWhile_cons]
          norm_num
          congr 1
          omega
      · have hmask : removedMask (l :: rest) seen =
            (l, false) :: removedMask rest (jsTrim l :: seen) := by
          simp [removedMask, hf, hm]
        have hded : ∀ d, dedupAux (l :: rest) seen d =
            (if 0 < d then [dupeMarker d] else []) ++
              l :: dedupAux rest (jsTrim l :: seen) 0 := by
          intro d
          simp [dedupAux, hf, hm]
        refine ⟨?_, fun d => ?_⟩
        · rw [hded 0, hmask, compressRemoved_kept, (ih _).1]
          simp
        · rw [hded (d + 1), hmask]
          simp only [List.takeWhile_cons, List.dropWhile_cons]
          norm_num
          rw [compressRemoved_kept, (ih _).1]
    · have hmask : removedMask (l :: rest) seen = (l, false) :: removedMask rest seen := by
        simp [removedMask, hf]
      have hded : ∀ d, dedupAux (l :: rest) seen d =
          (if 0 < d then [dupeMarker d] else []) ++ l :: dedupAux rest seen 0 := by
        intro d
        simp [dedupAux, hf]
      refine ⟨?_, fun d => ?_⟩
      · rw [hded 0, hmask, compressRemoved_kept, (ih _).1]
        simp
      · rw [hded (d + 1), hmask]
        simp only [List.takeWhile_cons, List.dropWhile_cons]
        norm_num
        rw [compressRemoved_kept, (ih _).1]

/-- Claim C5 (counterexample to the claim as stated): a stack-frame line
identical to an earlier but non-adjacent one is removed, not kept, because
the set of seen frames persists across the whole log. -/
theorem C5_nonadjacent_duplicate_removed :
    deduplicateStackTraces "  at A\n  at B\n  at A" =
      "  at A\n  at B\n  ... (1 duplicate frame(s) removed)" ∧
    deduplicateStackTraces "  at A\n  at B\n  at A" ≠ "  at A\n  at B\n  at A" :=
  ⟨by decide, by decide⟩

/-- Claim C5 (amended): the deduplication stage keeps the first occurrence
of each stack-frame line (compared by trimmed content) and removes every
later stack-frame line whose trimmed content was already seen anywhere
earlier in the log, adjacent or not; each maximal run of removed lines is
replaced by a single `  ... (N duplicate frame(s) removed)` marker counting
the removed lines of that run, and all other lines are preserved in
first-seen order. -/
theorem C5_dedup_removes_all_earlier_duplicates (log : String) :
    deduplicateStackTraces log =
      ⟨joinLines (compressRemoved (removedMask (splitLines log.data) []))⟩ := by
  unfold deduplicateStackTraces
  rw [(dedupAux_eq_compress (splitLines log.data) []).1]

/-! ## Error-snippet extraction (`extractErrorSnippet`, lines 184-196, and
its use in `parseLog`, lines 221-247) -/

/-- `lines.slice(-n)`. -/
def lastN (n : ℕ) (xs : List (List Char)) : List (List Char) :=
  xs.drop (xs.length - n)

/-- `lines.slice(Math.max(0, i - 1), Math.min(lines.length, i + 4))`. -/
def snippetWindow (lines : List (List Char)) (i : ℕ) : List (List Char) :=
  (lines.drop (i - 1)).take (min lines.length (i + 4) - (i - 1))

/-- `extractErrorSnippet` from `src/lib/logParser.ts`: the outer loop runs
over the patterns, the inner loop over the lines, so the window is centred
on the first line matching the first pattern that matches any line. -/
def extractErrorSnippet (log : List Char) (pats : List Pat) : List Char :=
  let lines := splitLines log
  match pats.findSome? (fun p => lines.findIdx? fun l => p.test l) with
  | some i => jsTrim (joinLines (snippetWindow lines i))
  | none => jsTrim (joinLines (lastN 5 lines))

/-- The `errorSnippet` field computed by `parseLog`: the matched taxonomy
entry feeds its pattern list to `extractErrorSnippet`; with no matching
entry the snippet is the trimmed last five lines of the raw log. -/
def parseLogSnippet (rawLog : String) : String :=
  match ERROR_TAXONOMY.find? (fun e => anyPatMatches e.2 rawLog.data) with
  | some e => ⟨extractErrorSnippet rawLog.data e.2⟩
  | none => ⟨jsTrim (joinLines (lastN 5 (splitLines rawLog.data)))⟩

/-- The snippet described by the words of claim C7: the window is centred on
the first line, scanning lines in order, that matches any pattern of the
matched category. -/
def specSnippetLineMajor (log : List Char) (pats : List Pat) : List Char :=
  let lines := splitLines log
  match lines.findIdx? (fun l => anyPatMatches pats l) with
  | some i => jsTrim (joinLines (snippetWindow lines i))
  | none => jsTrim (joinLines (lastN 5 lines))

/-- Claim C7 (counterexample to the claim as stated): in the log below the
first line matches the second Out-of-Memory pattern and the third line
matches the first Out-of-Memory pattern.  The claimed line-major scan would
window around the first line; the code scans pattern-major and windows
around the third line, dropping the first line from the snippet. -/
theorem C7_snippet_scan_is_pattern_major :
    detectErrorType "out of memory\nxx\nOutOfMemoryError" = .OutOfMemoryError ∧
    parseLogSnippet "out of memory\nxx\nOutOfMemoryError" = "xx\nOutOfMemoryError" ∧
    specSnippetLineMajor "out of memory\nxx\nOutOfMemoryError".data oomPatterns =
      "out of memory\nxx\nOutOfMemoryError".data ∧
    ("xx\nOutOfMemoryError" : String) ≠ "out of memory\nxx\nOutOfMemoryError" :=
  ⟨by decide, by decide, by decide, by decide⟩

/-- Claim C7 (amended): for the matched category the snippet is the window
from one line before through three lines after (clamped to text bounds) the
first line matching the first pattern, in declaration order, of that
category that matches any line; when no category matched, the snippet is the
trimmed last five lines of the log. -/
theorem C7_snippet_window :
    (∀ (log : List Char) (pats pre post : List Pat) (p : Pat) (i : ℕ),
      pats = pre ++ p :: post →
      (∀ q ∈ pre, ∀ l ∈ splitLines log, q.test l = false) →
      (splitLines log).findIdx? (fun l => p.test l) = some i →
      extractErrorSnippet log pats = jsTrim (joinLines (snippetWindow (splitLines log) i))) ∧
    (∀ (log : List Char) (pats : List Pat),
      (∀ p ∈ pats, ∀ l ∈ splitLines log, p.test l = false) →
      extractErrorSnippet log pats = jsTrim (joinLines (lastN 5 (splitLines log)))) ∧
    (∀ (s : String) (pre post : List (ErrorType × List Pat)) (e : ErrorType × List Pat),
      ERROR_TAXONOMY = pre ++ e :: post →
      (∀ e' ∈ pre, anyPatMatches e'.2 s.data = false) →
      anyPatMatches e.2 s.data = true →
      parseLogSnippet s = ⟨extractErrorSnippet s.data e.2⟩) ∧
    (∀ s : String, detectErrorType s = .UnknownError →
      parseLogSnippet s = ⟨jsTrim (joinLines (lastN 5 (splitLines s.data)))⟩) := by
  refine ⟨?_, ?_, ?_, ?_⟩
  · intro log pats pre post p i hsplit hpre hidx
    unfold extractErrorSnippet
    dsimp only
    rw [hsplit, List.findSome?_append]
    have h1 : (pre.findSome? fun q => (splitLines log).findIdx? fun l => q.test l) = none := by
      rw [List.findSome?_eq_none_iff]
      intro q hq
      rw [List.findIdx?_eq_none_iff]
      intro l hl
      exact hpre q hq l hl
    rw [h1, Option.none_or, List.findSome?_cons, hidx]
  · intro log pats hnone
    unfold extractErrorSnippet
    dsimp only
    have h1 : (pats.findSome? fun p => (splitLines log).findIdx? fun l => p.test l) = none := by
      rw [List.findSome?_eq_none_iff]
      intro p hp
      rw [List.findIdx?_eq_none_iff]
      intro l hl
      exact hnone p hp l hl
    rw [h1]
  · intro s pre post e hsplit hpre he
    unfold parseLogSnippet
    rw [hsplit, List.find?_append]
    have h1 : (pre.find? fun x => anyPatMatches x.2 s.data) = none := by
      rw [List.find?_eq_none]
      intro x hx
      simp [hpre x hx]
    have h2 : List.find? (fun x => anyPatMatches x.2 s.data) (e :: post) = some e :=
      List.find?_cons_of_pos _ he
    rw [h1, Option.none_or, h2]
  · intro s hunk
    unfold parseLogSnippet
    cases hfind : ERROR_TAXONOMY.find? (fun e => anyPatMatches e.2 s.data) with
    | none => rfl
    | some e =>
      exfalso
      have hmem := List.mem_of_find?_eq_some hfind
      have hdet : detectErrorType s = e.1 := by
        unfold detectErrorType
        rw [hfind]
      have h3 : e.1 = .UnknownError := by rw [← hdet, hunk]
      simp only [ERROR_TAXONOMY, List.mem_cons, List.not_mem_nil, or_false] at hmem
      rcases hmem with rfl | rfl | rfl | rfl | rfl | rfl <;> exact absurd h3 (by decide)

/-- Witness for C7: the matched-category window at a concrete log (first
Out-of-Memory pattern, first matching line index 2), and the last-five-lines
fallback at a concrete unclassifiable log. -/
theorem C7_snippet_window_witness :
    extractErrorSnippet "out of memory\nxx\nOutOfMemoryError".data oomPatterns =
      jsTrim (joinLines (snippetWindow (splitLines "out of memory\nxx\nOutOfMemoryError".data) 2)) ∧
    parseLogSnippet "hello" = ⟨jsTrim (joinLines (lastN 5 (splitLines "hello".data)))⟩ :=
  ⟨C7_snippet_window.1 "out of memory\nxx\nOutOfMemoryError".data oomPatterns []
      [.lit "out of memory".data, .lit "java heap space".data, .lit "OOMKilled".data,
       .lit "memory limit exceeded".data, .lit "GC overhead limit exceeded".data]
      (.lit "OutOfMemoryError".data) 2 rfl (by simp) (by decide),
    C7_snippet_window.2.2.2 "hello" (by decide)⟩

/-! ## Similarity matcher (`findSimilarIncidents`, `src/lib/similarityEngine.ts`)

The database read (user filter, newest-first order, `limit(50)`) is external
to the scoring logic; the incident window it returns is taken as an input
list.  The (stable) JavaScript `sort` with comparator
`(a, b) => b.similarityScore - a.similarityScore` is modelled by a stable
insertion sort under the relation `b.similarityScore ≤ a.similarityScore`;
stable sorting under a total preorder determines the output uniquely, so
the model is extensionally faithful. -/

/-- A row of the `incidents` table, as selected by `findSimilarIncidents`
(nullable columns are options). -/
structure Incident where
  id : String
  created_at : String
  error_type : Option String
  service_name : Option String
  root_cause_summary : Option String
  resolution_notes : Option String
  confidence_score : Option ℤ
  status : String
  stack_trace_hash : Option String
deriving DecidableEq, Repr

/-- `MatchParams` from `src/lib/similarityEngine.ts`. -/
structure MatchParams where
  userId : String
  stackTraceHash : String
  errorType : String
  serviceName : Option String
deriving DecidableEq, Repr

/-- `SimilarIncident` from `src/lib/similarityEngine.ts`. -/
structure SimilarIncident where
  id : String
  created_at : String
  error_type : Option String
  service_name : Option String
  root_cause_summary : Option String
  resolution_notes : Option String
  confidence_score : ℤ
  status : String
  similarityScore : ℕ
deriving DecidableEq, Repr

/-- JavaScript truthiness of a `string | null` value: `null` and the empty
string are falsy. -/
def optTruthy : Option String → Bool
  | none => false
  | some s => !(s == "")

/-- The per-incident score accumulation of the loop in
`findSimilarIncidents`: each `if` guard requires the query-side value to be
truthy and the incident-side column to be strictly equal. -/
def scoreIncident (p : MatchParams) (inc : Incident) : ℕ :=
  (if p.stackTraceHash ≠ "" ∧ inc.stack_trace_hash = some p.stackTraceHash then 70 else 0) +
  (if p.errorType ≠ "" ∧ inc.error_type = some p.errorType then 20 else 0) +
  (if optTruthy p.serviceName = true ∧ inc.service_name = p.serviceName then 10 else 0)

/-- The pushed result object (`confidence_score ?? 0`, score capped at
100). -/
def toSimilarIncident (inc : Incident) (score : ℕ) : SimilarIncident :=
  { id := inc.id
    created_at := inc.created_at
    error_type := inc.error_type
    service_name := inc.service_name
    root_cause_summary := inc.root_cause_summary
    resolution_notes := inc.resolution_notes
    confidence_score := inc.confidence_score.getD 0
    status := inc.status
    similarityScore := min score 100 }

/-- `findSimilarIncidents` over a given incident window: keep incidents
scoring at least 20, sort descending by score (stable), return the first
five. -/
def findSimilarIncidents (p : MatchParams) (data : List Incident) : List SimilarIncident :=
  ((data.filterMap fun inc =>
      if 20 ≤ scoreIncident p inc then some (toSimilarIncident inc (scoreIncident p inc))
      else none).insertionSort
    (fun a b => b.similarityScore ≤ a.similarityScore)).take 5

/-- The scoring formula in the words of claim C3: +70 when both fingerprints
are non-empty and exactly equal, +20 when the categories are equal, +10 when
the service names are equal, capped at 100. -/
def claimScore (p : MatchParams) (inc : Incident) : ℕ :=
  min ((if p.stackTraceHash ≠ "" ∧ inc.stack_trace_hash = some p.stackTraceHash then 70 else 0) +
       (if inc.error_type = some p.errorType then 20 else 0) +
       (if inc.service_name = p.serviceName then 10 else 0)) 100

/-- The scoring formula of the amended claim C3: as `claimScore`, but the
category contribution also requires the query category to be non-empty and
the service contribution also requires the query service name to be present
and non-empty. -/
def amendedScore (p : MatchParams) (inc : Incident) : ℕ :=
  min ((if p.stackTraceHash ≠ "" ∧ inc.stack_trace_hash = some p.stackTraceHash then 70 else 0) +
       (if p.errorType ≠ "" ∧ inc.error_type = some p.errorType then 20 else 0) +
       (if optTruthy p.serviceName = true ∧ inc.service_name = p.serviceName then 10 else 0)) 100

/-- Claim C3 (counterexample to the claim as stated): with an empty query
category and an incident whose category is also the empty string, the two
categories are equal, so the claimed formula awards +20 on top of the +70
fingerprint match; the code awards nothing for the category because the
empty query string is falsy, and returns the match with score 70, not 90. -/
theorem C3_empty_category_counterexample :
    (findSimilarIncidents ⟨"u", "h", "", none⟩
        [⟨"i1", "t1", some "", some "svc", none, none, none, "resolved", some "h"⟩]).map
      (fun m => m.similarityScore) = [70] ∧
    claimScore ⟨"u", "h", "", none⟩
      ⟨"i1", "t1", some "", some "svc", none, none, none, "resolved", some "h"⟩ = 90 ∧
    (70 : ℕ) ≠ 90 :=
  ⟨by decide, by decide, by decide⟩

/-- Claim C3 (amended): for every query and incident window of at most 50
incidents, `findSimilarIncidents` returns at most 5 matches; every returned
score equals the amended additive formula (fingerprint +70 when both
non-empty and equal, category +20 when the query category is non-empty and
both are equal, service +10 when the query service name is truthy and both
are equal, capped at 100), lies in [20, 100], and the returned list is
sorted descending by score. -/
theorem C3_similarity_bounds (p : MatchParams) (data : List Incident)
    (hlen : data.length ≤ 50) :
    (findSimilarIncidents p data).length ≤ 5 ∧
    (∀ m ∈ findSimilarIncidents p data,
      20 ≤ m.similarityScore ∧ m.similarityScore ≤ 100 ∧
      ∃ inc ∈ data, m.similarityScore = amendedScore p inc) ∧
    (findSimilarIncidents p data).Pairwise
      (fun a b => b.similarityScore ≤ a.similarityScore) := by
  haveI hTot : IsTotal SimilarIncident
      (fun a b => b.similarityScore ≤ a.similarityScore) :=
    ⟨fun a b => Nat.le_total b.similarityScore a.similarityScore⟩
  haveI hTrans : IsTrans SimilarIncident
      (fun a b => b.similarityScore ≤ a.similarityScore) :=
    ⟨fun _ _ _ hab hbc => le_trans hbc hab⟩
  refine ⟨List.length_take_le 5 _, ?_, ?_⟩
  · intro m hm
    have hm1 : m ∈ (List.filterMap _ data).insertionSort
        (fun a b => b.similarityScore ≤ a.similarityScore) := List.mem_of_mem_take hm
    have hm2 := (List.perm_insertionSort
      (fun a b : SimilarIncident => b.similarityScore ≤ a.similarityScore) _).mem_iff.mp hm1
    obtain ⟨inc, hinc, hf⟩ := List.mem_filterMap.mp hm2
    by_cases hsc : 20 ≤ scoreIncident p inc
    · rw [if_pos hsc] at hf
      injection hf with hf
      subst hf
      refine ⟨le_min hsc (by omega), min_le_right _ _, inc, hinc, rfl⟩
    · rw [if_neg hsc] at hf
      exact absurd hf (by simp)
  · exact List.Pairwise.sublist (List.take_sublist 5 _)
      (List.sorted_insertionSort _ _)

/-- Witness for C3 at a concrete query and two-incident window. -/
theorem C3_similarity_bounds_witness :
    (findSimilarIncidents ⟨"u", "h", "OutOfMemoryError", some "svc"⟩
        [⟨"i1", "t1", some "OutOfMemoryError", some "svc", none, none, some 80, "resolved", some "h"⟩,
         ⟨"i2", "t2", some "OutOfMemoryError", some "other", none, none, none, "open", none⟩]).length ≤ 5 ∧
    (∀ m ∈ findSimilarIncidents ⟨"u", "h", "OutOfMemoryError", some "svc"⟩
        [⟨"i1", "t1", some "OutOfMemoryError", some "svc", none, none, some 80, "resolved", some "h"⟩,
         ⟨"i2", "t2", some "OutOfMemoryError", some "other", none, none, none, "open", none⟩],
      20 ≤ m.similarityScore ∧ m.similarityScore ≤ 100 ∧
      ∃ inc ∈ [(⟨"i1", "t1", some "OutOfMemoryError", some "svc", none, none, some 80, "resolved", some "h"⟩ : Incident),
               ⟨"i2", "t2", some "OutOfMemoryError", some "other", none, none, none, "open", none⟩],
        m.similarityScore = amendedScore ⟨"u", "h", "OutOfMemoryError", some "svc"⟩ inc) ∧
    (findSimilarIncidents ⟨"u", "h", "OutOfMemoryError", some "svc"⟩
        [⟨"i1", "t1", some "OutOfMemoryError", some "svc", none, none, some 80, "resolved", some "h"⟩,
         ⟨"i2", "t2", some "OutOfMemoryError", some "other", none, none, none, "open", none⟩]).Pairwise
      (fun a b => b.similarityScore ≤ a.similarityScore) :=
  C3_similarity_bounds _ _ (by decide)

/-- Claim C9: two incidents that agree on fingerprint, category and service
name (in particular two incidents differing only in their resolution notes)
receive the same similarity score, both as computed by the scoring loop and
as returned by the matcher. -/
theorem C9_score_ignores_resolution_notes (p : MatchParams) (i1 i2 : Incident)
    (hh : i1.stack_trace_hash = i2.stack_trace_hash)
    (ht : i1.error_type = i2.error_type)
    (hs : i1.service_name = i2.service_name) :
    scoreIncident p i1 = scoreIncident p i2 ∧
    (findSimilarIncidents p [i1]).map (fun m => m.similarityScore) =
      (findSimilarIncidents p [i2]).map (fun m => m.similarityScore) := by
  have hscore : scoreIncident p i1 = scoreIncident p i2 := by
    unfold scoreIncident
    rw [hh, ht, hs]
  refine ⟨hscore, ?_⟩
  unfold findSimilarIncidents
  simp only [List.filterMap, hscore, toSimilarIncident]
  by_cases hsc : 20 ≤ scoreIncident p i2
  · simp [hsc, List.insertionSort]
  · simp [hsc, List.insertionSort]

/-- Witness for C9 at two concrete incidents differing only in their
resolution notes. -/
theorem C9_score_ignores_resolution_notes_witness :
    scoreIncident ⟨"u", "h", "TimeoutException", some "svc"⟩
        ⟨"i1", "t", some "TimeoutException", some "svc", some "rc", some "restart the worker", some 70, "resolved", some "h"⟩ =
      scoreIncident ⟨"u", "h", "TimeoutException", some "svc"⟩
        ⟨"i1", "t", some "TimeoutException", some "svc", some "rc", some "increase the timeout", some 70, "resolved", some "h"⟩ ∧
    (findSimilarIncidents ⟨"u", "h", "TimeoutException", some "svc"⟩
        [⟨"i1", "t", some "TimeoutException", some "svc", some "rc", some "restart the worker", some 70, "resolved", some "h"⟩]).map
      (fun m => m.similarityScore) =
    (findSimilarIncidents ⟨"u", "h", "TimeoutException", some "svc"⟩
        [⟨"i1", "t", some "TimeoutException", some "svc", some "rc", some "increase the timeout", some 70, "resolved", some "h"⟩]).map
      (fun m => m.similarityScore) :=
  C9_score_ignores_resolution_notes _ _ _ rfl rfl rfl

/-! ## Confidence scorer (`computeConfidence`, `src/lib/confidenceEngine.ts`)

JavaScript numbers are modelled as rationals; `Math.round` is
floor-of-plus-one-half, which matches the JavaScript semantics of rounding
half toward positive infinity. -/

/-- `ParsedLog` from `src/lib/logParser.ts` (the record consumed by the
confidence scorer). -/
structure ParsedLog where
  detectedErrorType : ErrorType
  errorSnippet : String
  logSummary : String
  serviceName : Option String
  environment : Option String
  requestId : Option String
  timestamp : Option String
  stackTrace : String
  cleanedLog : String
deriving DecidableEq, Repr

/-- `ConfidenceInput` from `src/lib/confidenceEngine.ts`. -/
structure ConfidenceInput where
  llmConfidenceScore : ℚ
  similarIncidents : List SimilarIncident
  parsedLog : ParsedLog

inductive ConfidenceLevel
  | high
  | medium
  | low
deriving DecidableEq, Repr

/-- `ConfidenceResult` from `src/lib/confidenceEngine.ts`. -/
structure ConfidenceResult where
  score : ℤ
  reasoning : String
  level : ConfidenceLevel

/-- JavaScript `Math.round`. -/
def jsRound (x : ℚ) : ℤ := ⌊x + 1/2⌋

/-- The similarity-strength contribution: flat 30 when the best match scores
at least 70, flat 15 when it scores at least 40, else 0. -/
def simBonus : List SimilarIncident → ℚ
  | [] => 0
  | best :: _ =>
    if 70 ≤ best.similarityScore then 30
    else if 40 ≤ best.similarityScore then 15
    else 0

/-- The parsing-completeness contribution (fixed increments, maximum 30). -/
def completenessScore (p : ParsedLog) : ℚ :=
  (if p.detectedErrorType ≠ .UnknownError then 8 else 0) +
  (if optTruthy p.serviceName then 6 else 0) +
  (if optTruthy p.environment then 4 else 0) +
  (if optTruthy p.requestId then 4 else 0) +
  (if optTruthy p.timestamp then 4 else 0) +
  (if 20 < p.stackTrace.length then 4 else 0)

/-- `finalScore`:
`Math.round(Math.min(llmWeight + similarity + completeness, 100))`, with
`llmWeight = Math.min(llmConfidenceScore, 100) * 0.4`. -/
def confidenceScore (input : ConfidenceInput) : ℤ :=
  jsRound (min (min input.llmConfidenceScore 100 * 0.4 +
    simBonus input.similarIncidents + completenessScore input.parsedLog) 100)

def natToString (n : ℕ) : String := ⟨natToChars n⟩

/-- The certainty-bucket sentence pushed first. -/
def llmReason (llm : ℚ) : String :=
  if 80 ≤ llm then "LLM reports high certainty in its analysis"
  else if 50 ≤ llm then "LLM reports moderate certainty"
  else "LLM reports low certainty — analysis may be speculative"

/-- The similarity-bucket sentence; no sentence is pushed for a non-empty
list whose best match scores below 40. -/
def simReason : List SimilarIncident → Option String
  | [] => some "No similar past incidents found — this may be a novel issue"
  | best :: rest =>
    if 70 ≤ best.similarityScore then
      some ("Strong match with " ++ natToString (best :: rest).length ++
        " previous incident(s) (" ++ natToString best.similarityScore ++ "% similarity)")
    else if 40 ≤ best.similarityScore then
      some ("Partial match with previous incidents (" ++
        natToString best.similarityScore ++ "% similarity)")
    else none

/-- The completeness-bucket sentence. -/
def completenessReason (p : ParsedLog) : String :=
  if 20 ≤ completenessScore p then "Log provided rich structured context (service, env, trace)"
  else if 10 ≤ completenessScore p then "Some structured context available from log"
  else "Limited structured context extracted — confidence reduced"

/-- `computeConfidence` from `src/lib/confidenceEngine.ts`. -/
def computeConfidence (input : ConfidenceInput) : ConfidenceResult :=
  { score := confidenceScore input
    reasoning :=
      String.intercalate ". "
        ([llmReason input.llmConfidenceScore] ++
          (simReason input.similarIncidents).toList ++
          [completenessReason input.parsedLog]) ++ "."
    level :=
      if 75 ≤ confidenceScore input then .high
      else if 45 ≤ confidenceScore input then .medium
      else .low }

/-- The level as a function of the score alone
(`finalScore >= 75 ? "high" : finalScore >= 45 ? "medium" : "low"`). -/
def getLevel (score : ℤ) : ConfidenceLevel :=
  if 75 ≤ score then .high else if 45 ≤ score then .medium else .low

/-- Claim C2 (counterexample to the claim as stated): the code clamps the
model-reported certainty only from above (`Math.min(x, 100)`), not from
below, so a negative reported certainty drives the final score below 0:
at certainty -10 with no similar incidents and an empty parse, the score is
-4, outside [0, 100]. -/
theorem C2_negative_certainty_counterexample :
    (computeConfidence ⟨-10, [], ⟨.UnknownError, "", "", none, none, none, none, "", ""⟩⟩).score
      = -4 ∧
    ¬(0 ≤ (computeConfidence
      ⟨-10, [], ⟨.UnknownError, "", "", none, none, none, none, "", ""⟩⟩).score) := by
  have h : (computeConfidence
      ⟨-10, [], ⟨.UnknownError, "", "", none, none, none, none, "", ""⟩⟩).score = -4 := by
    show confidenceScore _ = -4
    unfold confidenceScore
    norm_num [simBonus, completenessScore, optTruthy, jsRound, String.length]
  exact ⟨h, by rw [h]; norm_num⟩

theorem simBonus_nonneg (l : List SimilarIncident) : 0 ≤ simBonus l := by
  unfold simBonus
  split
  · norm_num
  · split
    · norm_num
    · split <;> norm_num

theorem simBonus_le (l : List SimilarIncident) : simBonus l ≤ 30 := by
  unfold simBonus
  split
  · norm_num
  · split
    · norm_num
    · split <;> norm_num

theorem completenessScore_nonneg (p : ParsedLog) : 0 ≤ completenessScore p := by
  unfold completenessScore
  split_ifs <;> norm_num

theorem completenessScore_le (p : ParsedLog) : completenessScore p ≤ 30 := by
  unfold completenessScore
  split_ifs <;> norm_num

/-- Claim C2 (amended): for every input whose model-reported certainty is
nonnegative, the confidence score lies in [0, 100] (the certainty is clamped
only from above, to at most 100, before the 0.4 weighting), and for every
input the level is the pure step function of the score with boundaries
exactly at 45 and 75 (score 44 gives low, 45 medium, 74 medium, 75 high). -/
theorem C2_confidence_bounds :
    (∀ input : ConfidenceInput, 0 ≤ input.llmConfidenceScore →
      0 ≤ (computeConfidence input).score ∧ (computeConfidence input).score ≤ 100) ∧
    (∀ input : ConfidenceInput,
      (computeConfidence input).level = getLevel (computeConfidence input).score) ∧
    getLevel 44 = .low ∧ getLevel 45 = .medium ∧
    getLevel 74 = .medium ∧ getLevel 75 = .high := by
  refine ⟨?_, fun _ => rfl, by decide, by decide, by decide, by decide⟩
  intro input hllm
  constructor
  · show (0 : ℤ) ≤ confidenceScore input
    have h0 : (0 : ℤ) = jsRound 0 := by norm_num [jsRound]
    rw [h0]
    apply Int.floor_le_floor
    apply add_le_add_right
    apply le_min _ (by norm_num)
    have h1 : (0 : ℚ) ≤ min input.llmConfidenceScore 100 * 0.4 :=
      mul_nonneg (le_min hllm (by norm_num)) (by norm_num)
    have h2 := simBonus_nonneg input.similarIncidents
    have h3 := completenessScore_nonneg input.parsedLog
    linarith
  · show confidenceScore input ≤ 100
    have h0 : (100 : ℤ) = jsRound 100 := by norm_num [jsRound]
    rw [h0]
    apply Int.floor_le_floor
    apply add_le_add_right
    exact min_le_right _ _

/-- Witness for C2 at a concrete nonnegative-certainty input. -/
theorem C2_confidence_bounds_witness :
    (0 : ℚ) ≤ 90 ∧
    (0 ≤ (computeConfidence ⟨90, [],
        ⟨.OutOfMemoryError, "snippet", "summary", some "svc", some "prod", none, none,
          "at a very long stack trace line", ""⟩⟩).score ∧
      (computeConfidence ⟨90, [],
        ⟨.OutOfMemoryError, "snippet", "summary", some "svc", some "prod", none, none,
          "at a very long stack trace line", ""⟩⟩).score ≤ 100) :=
  ⟨by norm_num, C2_confidence_bounds.1 _ (by norm_num)⟩

/-- Claim C8: with the similarity list and the parsed log held fixed, the
confidence score is monotonically non-decreasing in the model-reported
certainty. -/
theorem C8_confidence_monotone (sim : List SimilarIncident) (pl : ParsedLog)
    (a b : ℚ) (hab : a ≤ b) :
    (computeConfidence ⟨a, sim, pl⟩).score ≤ (computeConfidence ⟨b, sim, pl⟩).score := by
  show confidenceScore ⟨a, sim, pl⟩ ≤ confidenceScore ⟨b, sim, pl⟩
  unfold confidenceScore
  apply Int.floor_le_floor
  apply add_le_add_right
  apply min_le_min _ le_rfl
  apply add_le_add_right
  apply add_le_add_right
  exact mul_le_mul_of_nonneg_right (min_le_min hab le_rfl) (by norm_num)

/-- Witness for C8 at concrete certainties 10 and 20. -/
theorem C8_confidence_monotone_witness :
    (10 : ℚ) ≤ 20 ∧
    (computeConfidence ⟨10, [],
        ⟨.UnknownError, "", "", none, none, none, none, "", ""⟩⟩).score ≤
      (computeConfidence ⟨20, [],
        ⟨.UnknownError, "", "", none, none, none, none, "", ""⟩⟩).score :=
  ⟨by norm_num, C8_confidence_monotone _ _ 10 20 (by norm_num)⟩

/-! ## Reasoning-response validation and retry
(`parseJSON` and `serve`, `supabase/functions/analyze/index.ts`)

The brace-extraction plus `JSON.parse` step of `parseJSON` is abstracted: a
gateway response is modelled as `Option Json`, `none` standing for a
response in which no JSON object could be extracted or parsed.  `Json`
objects carry association lists with the unique keys `JSON.parse` produces;
property order is not modelled (the validation logic never observes it).
The external reasoning call is a function from the prompt to the response,
so the retry with an amended prompt is visible in the model. -/

inductive Json where
  | null
  | bool (b : Bool)
  | num (q : ℚ)
  | str (s : String)
  | arr (items : List Json)
  | obj (fields : List (String × Json))

/-- Property read `parsed.k`. -/
def Json.getField : Json → String → Option Json
  | .obj fields, k => (fields.find? (fun p => p.1 == k)).map (fun p => p.2)
  | _, _ => none

/-- Property assignment `parsed.k = v` (observable only through
`getField`). -/
def Json.setField : Json → String → Json → Json
  | .obj fields, k, v => .obj ((k, v) :: fields.filter (fun p => !(p.1 == k)))
  | j, _, _ => j

/-- `s.split(/\n|;/)`. -/
def splitOnNlSemi : List Char → List (List Char)
  | [] => [[]]
  | c :: rest =>
    if c = '\n' ∨ c = ';' then [] :: splitOnNlSemi rest
    else
      match splitOnNlSemi rest with
      | l :: ls => (c :: l) :: ls
      | [] => [[c]]

/-- The fix-steps coercion:
`recommended_fix_steps.split(/\n|;/).filter(Boolean).map(trim)` when the
field holds a string, the value itself when it is already an array, and the
empty array otherwise. -/
def coerceFixSteps (v : Option Json) : Json :=
  match v with
  | some (.arr items) => .arr items
  | some (.str s) =>
    .arr (((splitOnNlSemi s.data).filter (fun l => l ≠ [])).map (fun l => .str ⟨jsTrim l⟩))
  | _ => .arr []

/-- The confidence default: keep a numeric value, otherwise 50. -/
def coerceConfidence (v : Option Json) : Json :=
  match v with
  | some (.num q) => .num q
  | _ => .num 50

/-- `parseJSON` from `supabase/functions/analyze/index.ts`: fail unless
`root_cause_summary` is a string, coerce `recommended_fix_steps`, default
`confidence_score`. -/
def parseJSON (resp : Option Json) : Option Json :=
  match resp with
  | none => none
  | some j =>
    match j.getField "root_cause_summary" with
    | some (.str _) =>
      some ((j.setField "recommended_fix_steps"
          (coerceFixSteps (j.getField "recommended_fix_steps"))).setField
        "confidence_score" (coerceConfidence (j.getField "confidence_score")))
    | _ => none

/-- The retry instruction appended to the prompt by `serve`. -/
def retrySuffix : String :=
  "\n\nIMPORTANT: Your previous response was not valid JSON. Return ONLY a valid JSON object."

/-- The retry-prompt amendment appended by `serve`. -/
def amendPrompt (p : String) : String := p ++ retrySuffix

/-- The orchestration in `serve`: call once, on parse failure call exactly
once more with the amended prompt, and fail hard (`none`, the thrown
`AI did not return valid JSON after retry`) when the retry also fails to
parse.  The second component counts the reasoning-engine calls. -/
def runAnalysis (llm : String → Option Json) (prompt : String) : Option Json × ℕ :=
  match parseJSON (llm prompt) with
  | some r => (some r, 1)
  | none =>
    match parseJSON (llm (amendPrompt prompt)) with
    | some r => (some r, 2)
    | none => (none, 2)

theorem getField_setField_self (fs : List (String × Json)) (k : String) (v : Json) :
    (Json.setField (.obj fs) k v).getField k = some v := by
  simp [Json.setField, Json.getField]

theorem find?_filter_ne (fs : List (String × Json)) (k k' : String) (hne : k' ≠ k) :
    (fs.filter (fun p => !(p.1 == k))).find? (fun p => p.1 == k') =
      fs.find? (fun p => p.1 == k') := by
  induction fs with
  | nil => rfl
  | cons p ps ih =>
    by_cases hk : p.1 = k
    · have h1 : (p.1 == k) = true := by simp [hk]
      have h2 : (p.1 == k') = false := by
        rw [hk]
        exact beq_eq_false_iff_ne.mpr (Ne.symm hne)
      simp [List.filter, List.find?, h1, h2, ih]
    · have h1 : (p.1 == k) = false := by simp [hk]
      by_cases hk' : p.1 = k'
      · have h2 : (p.1 == k') = true := by simp [hk']
        simp [List.filter, List.find?, h1, h2]
      · have h2 : (p.1 == k') = false := by simp [hk']
        simp [List.filter, List.find?, h1, h2, ih]

theorem getField_setField_ne (fs : List (String × Json)) (k k' : String) (v : Json)
    (hne : k' ≠ k) :
    (Json.setField (.obj fs) k v).getField k' = (Json.obj fs).getField k' := by
  have hkk : (k == k') = false := beq_eq_false_iff_ne.mpr (Ne.symm hne)
  simp only [Json.setField, Json.getField, List.find?, hkk]
  rw [find?_filter_ne fs k k' hne]

theorem parseJSON_shape {j r : Json} (h : parseJSON (some j) = some r) :
    (∃ s : String, j.getField "root_cause_summary" = some (.str s)) ∧
    r = (j.setField "recommended_fix_steps"
        (coerceFixSteps (j.getField "recommended_fix_steps"))).setField
      "confidence_score" (coerceConfidence (j.getField "confidence_score")) := by
  simp only [parseJSON] at h
  split at h
  · rename_i s heq
    injection h with h
    exact ⟨⟨s, heq⟩, h.symm⟩
  · exact absurd h (by simp)

theorem obj_of_getField_str {j : Json} {k s : String}
    (h : j.getField k = some (.str s)) : ∃ fs, j = Json.obj fs := by
  cases j with
  | obj fs => exact ⟨fs, rfl⟩
  | null => exact absurd h (by simp [Json.getField])
  | bool b => exact absurd h (by simp [Json.getField])
  | num q => exact absurd h (by simp [Json.getField])
  | str s2 => exact absurd h (by simp [Json.getField])
  | arr a => exact absurd h (by simp [Json.getField])

/-- Claim C6: on an unparseable first response the orchestrator makes
exactly one retry, with an amended (hence different) prompt, and fails hard
exactly when the retry response is also unparseable; a parseable first
response means no retry.  A response passes validation only when its
root-cause field is a string; a string fix-steps field is coerced to a list
by splitting on newlines and semicolons (dropping empty pieces, trimming);
and the confidence field of the validated result is 50 whenever the
response carried no numeric confidence. -/
theorem C6_single_retry_and_shape :
    (∀ (llm : String → Option Json) (prompt : String),
      parseJSON (llm prompt) = none →
        (runAnalysis llm prompt).2 = 2 ∧
        amendPrompt prompt ≠ prompt ∧
        ((runAnalysis llm prompt).1 = none ↔ parseJSON (llm (amendPrompt prompt)) = none)) ∧
    (∀ (llm : String → Option Json) (prompt : String),
      parseJSON (llm prompt) ≠ none → (runAnalysis llm prompt).2 = 1) ∧
    (∀ j r : Json, parseJSON (some j) = some r →
      ∃ s : String, j.getField "root_cause_summary" = some (.str s)) ∧
    (∀ (j r : Json) (s : String), parseJSON (some j) = some r →
      j.getField "recommended_fix_steps" = some (.str s) →
      r.getField "recommended_fix_steps" =
        some (.arr (((splitOnNlSemi s.data).filter (fun l => l ≠ [])).map
          (fun l => .str ⟨jsTrim l⟩)))) ∧
    (∀ j r : Json, parseJSON (some j) = some r →
      (∀ q : ℚ, j.getField "confidence_score" ≠ some (.num q)) →
      r.getField "confidence_score" = some (.num 50)) := by
  refine ⟨?_, ?_, ?_, ?_, ?_⟩
  · intro llm prompt h
    unfold runAnalysis
    rw [h]
    refine ⟨?_, ?_, ?_⟩
    · cases h2 : parseJSON (llm (amendPrompt prompt)) <;> simp [h2]
    · intro he
      have hlen := congrArg String.length he
      simp only [amendPrompt, String.length_append] at hlen
      have hpos : 0 < retrySuffix.length := by decide
      omega
    · cases h2 : parseJSON (llm (amendPrompt prompt)) <;> simp [h2]
  · intro llm prompt h
    unfold runAnalysis
    cases h1 : parseJSON (llm prompt) with
    | none => exact absurd h1 h
    | some r => rfl
  · intro j r h
    exact (parseJSON_shape h).1
  · intro j r s h hfix
    obtain ⟨⟨s0, hroot⟩, hr⟩ := parseJSON_shape h
    obtain ⟨fs, rfl⟩ := obj_of_getField_str hroot
    subst hr
    rw [show (Json.setField (.obj fs) "recommended_fix_steps"
        (coerceFixSteps ((Json.obj fs).getField "recommended_fix_steps"))) =
        Json.obj (("recommended_fix_steps",
          coerceFixSteps ((Json.obj fs).getField "recommended_fix_steps")) ::
          fs.filter (fun p => !(p.1 == "recommended_fix_steps"))) from rfl]
    rw [getField_setField_ne _ _ _ _ (by decide), hfix]
    simp [Json.getField, List.find?, coerceFixSteps]
  · intro j r h hnum
    obtain ⟨⟨s0, hroot⟩, hr⟩ := parseJSON_shape h
    obtain ⟨fs, rfl⟩ := obj_of_getField_str hroot
    subst hr
    rw [show (Json.setField (.obj fs) "recommended_fix_steps"
        (coerceFixSteps ((Json.obj fs).getField "recommended_fix_steps"))) =
        Json.obj (("recommended_fix_steps",
          coerceFixSteps ((Json.obj fs).getField "recommended_fix_steps")) ::
          fs.filter (fun p => !(p.1 == "recommended_fix_steps"))) from rfl]
    rw [getField_setField_self]
    cases hc : (Json.obj fs).getField "confidence_score" with
    | none => simp [coerceConfidence, hc]
    | some v =>
      cases v with
      | num q => exact absurd hc (hnum q)
      | null => simp [coerceConfidence, hc]
      | bool b => simp [coerceConfidence, hc]
      | str s => simp [coerceConfidence, hc]
      | arr a => simp [coerceConfidence, hc]
      | obj o => simp [coerceConfidence, hc]

/-- Witness for C6: a reasoning engine whose first response is an object
without a root-cause string (validation fails) and whose retry response is
valid; the orchestrator makes exactly two calls and succeeds, and the
fix-steps string of a valid response is split into a list. -/
theorem C6_single_retry_and_shape_witness :
    parseJSON ((fun p : String =>
        if p = "P" then some (Json.obj [])
        else some (Json.obj [("root_cause_summary", Json.str "heap exhausted")])) "P") = none ∧
    ((runAnalysis (fun p : String =>
        if p = "P" then some (Json.obj [])
        else some (Json.obj [("root_cause_summary", Json.str "heap exhausted")])) "P").2 = 2 ∧
      amendPrompt "P" ≠ "P" ∧
      ((runAnalysis (fun p : String =>
          if p = "P" then some (Json.obj [])
          else some (Json.obj [("root_cause_summary", Json.str "heap exhausted")])) "P").1 = none ↔
        parseJSON ((fun p : String =>
          if p = "P" then some (Json.obj [])
          else some (Json.obj [("root_cause_summary", Json.str "heap exhausted")]))
            (amendPrompt "P")) = none)) ∧
    (∃ r : Json,
      parseJSON (some (Json.obj [("root_cause_summary", Json.str "x"),
        ("recommended_fix_steps", Json.str "restart; check quota")])) = some r ∧
      r.getField "recommended_fix_steps" =
        some (.arr [Json.str "restart", Json.str "check quota"]) ∧
      r.getField "confidence_score" = some (Json.num 50)) := by
  refine ⟨rfl, C6_single_retry_and_shape.1 _ "P" rfl, ?_⟩
  refine ⟨_, rfl, ?_, ?_⟩
  · have h := C6_single_retry_and_shape.2.2.2.1
      (Json.obj [("root_cause_summary", Json.str "x"),
        ("recommended_fix_steps", Json.str "restart; check quota")]) _ "restart; check quota"
      rfl rfl
    rw [h]
    rfl
  · have h := C6_single_retry_and_shape.2.2.2.2
      (Json.obj [("root_cause_summary", Json.str "x"),
        ("recommended_fix_steps", Json.str "restart; check quota")]) _ rfl
      (by intro q hq; exact absurd hq (by simp [Json.getField]))
    exact h

end RootSight
